import Mathlib

/-!
Verification development for the FATORI-V fault-injection framework
(protocol/session engine). The definitions below are a shallow embedding,
translated from the Python sources:

  * `fi/fault_injection.py`   (`_AckTracker`, rate reconciliation helpers)
  * `fi/core/injector.py`     (`_parse_inject_ack`)
  * `fi/time/uniform.py`      (`Profile.run`, `end_condition_prompt`)
  * `fi/time/base.py`         (`ProfileBase._addr_iter`)
  * `fi/area/address_list.py` (`Profile.__init__`, `next_address`, ...)
  * `fi/area/base.py`         (`load_addresses_file`, `apply_ordering`)

Python strings are Lean `String`s, Python floats are modelled as `ℚ`
(ideal arithmetic; decimal re-formatting such as `f"{x:.12g}"` is treated
as the identity on the value), machine time stamps are `ℚ` supplied by
explicit oracle functions, and fallible constructors return `Except`.
-/

namespace FatoriV

/-! ## Python character / string primitives -/

/-- Python `str.isspace`-style whitespace set used by `str.strip` and by the
regex class `\s`: space, tab, newline, carriage return, vertical tab,
form feed. -/
def isPySpace (c : Char) : Bool :=
  c = ' ' || c = '\t' || c = '\n' || c = '\r' ||
  c.toNat = 11 || c.toNat = 12

/-- Regex class `[0-9A-Fa-f]` (one hexadecimal digit), by code point:
48–57 = `0`–`9`, 65–70 = `A`–`F`, 97–102 = `a`–`f`. -/
def isHexDigitChar (c : Char) : Bool :=
  (48 ≤ c.toNat && c.toNat ≤ 57) ||
  (65 ≤ c.toNat && c.toNat ≤ 70) ||
  (97 ≤ c.toNat && c.toNat ≤ 102)

/-- Regex class `[0-9A-F]` (uppercase hexadecimal digit). -/
def isUpperHexDigitChar (c : Char) : Bool :=
  (48 ≤ c.toNat && c.toNat ≤ 57) ||
  (65 ≤ c.toNat && c.toNat ≤ 70)

/-- Numeric value of one hexadecimal digit, as used by `int(_, 16)`. -/
def hexDigitVal (c : Char) : Nat :=
  if 48 ≤ c.toNat && c.toNat ≤ 57 then c.toNat - 48
  else if 65 ≤ c.toNat && c.toNat ≤ 70 then c.toNat - 55
  else if 97 ≤ c.toNat && c.toNat ≤ 102 then c.toNat - 87
  else 0

/-- ASCII `str.upper` on one character: lowercase letters (code 97–122)
are shifted down by 32, everything else is unchanged. -/
def upperChar (c : Char) : Char :=
  if 97 ≤ c.toNat && c.toNat ≤ 122 then Char.ofNat (c.toNat - 32) else c

/-- ASCII `str.lower` on one character. -/
def lowerChar (c : Char) : Char :=
  if 65 ≤ c.toNat && c.toNat ≤ 90 then Char.ofNat (c.toNat + 32) else c

/-- Python `str.strip()`: drop leading and trailing whitespace. -/
def pyStrip (s : String) : String :=
  String.mk (((s.data.dropWhile isPySpace).reverse.dropWhile isPySpace).reverse)

/-- Python `str.upper()` (ASCII fragment). -/
def pyUpper (s : String) : String := String.mk (s.data.map upperChar)

/-- Python `str.lower()` (ASCII fragment). -/
def pyLower (s : String) : String := String.mk (s.data.map lowerChar)

/-! ## Reply-line regexes

`fi/fault_injection.py` and `fi/core/injector.py` recognize reply lines with
  `_RE_SC   = ^SC\s+([0-9A-Fa-f]{2})$`          (case-sensitive)
  `_RE_ECHO_N = ^[IOD]>\s+N\s` with `re.IGNORECASE`. -/

/-- Tail of the SC regex after `SC` and one whitespace character:
optional further whitespace, then exactly two hex digits, then end of line.
Returns the value of `int(group(1), 16)`. -/
def matchSCTail (cs : List Char) : Option Nat :=
  match cs.dropWhile isPySpace with
  | [h1, h2] =>
      if isHexDigitChar h1 && isHexDigitChar h2 then
        some (hexDigitVal h1 * 16 + hexDigitVal h2)
      else none
  | _ => none

/-- `^SC\s+([0-9A-Fa-f]{2})$`: on a match, the parsed two-digit hex value. -/
def matchSC (cs : List Char) : Option Nat :=
  match cs with
  | 'S' :: 'C' :: c :: rest =>
      if isPySpace c then matchSCTail rest else none
  | _ => none

/-- `^[IOD]>\s+N\s` with IGNORECASE: prompt character, `>`, one or more
whitespace, `N`, one whitespace. -/
def matchEchoN (cs : List Char) : Bool :=
  match cs with
  | p :: '>' :: c :: rest =>
      (p = 'I' || p = 'O' || p = 'D' || p = 'i' || p = 'o' || p = 'd') &&
      isPySpace c &&
      (match rest.dropWhile isPySpace with
       | n :: c2 :: _ => (n = 'N' || n = 'n') && isPySpace c2
       | _ => false)
  | _ => false

/-! ## `_AckTracker` (fi/fault_injection.py, lines 175–218)

State: `_pending : bool` and the `threading.Event` flag. The mutex is the
serialization device; each method is modelled as an atomic state
transformer. `wait(timeout)` calls only `Event.wait`, which reads the flag;
its boolean result is the flag value at the moment the call returns (a
timed-out wait returns the flag still unset). -/

structure AckTracker where
  pending : Bool
  eventSet : Bool
deriving DecidableEq, Repr

namespace AckTracker

/-- Initial state from `__init__`: not pending, event clear. -/
def init : AckTracker := { pending := false, eventSet := false }

/-- `start()`: mark pending, clear the event. -/
def start (_t : AckTracker) : AckTracker :=
  { pending := true, eventSet := false }

/-- `on_rx(line)`: returns whether this call resolved the pending
acknowledgement, together with the updated state. -/
def on_rx (t : AckTracker) (line : String) : Bool × AckTracker :=
  if !t.pending then (false, t)
  else
    match matchSC line.data with
    | none => (false, t)
    | some val =>
        if val = 0 then (true, { pending := false, eventSet := true })
        else (false, t)

/-- `wait(timeout_s)`: `self._event.wait(timeout_s)` — observes the event
flag, never mutates the tracker. -/
def wait (t : AckTracker) : Bool × AckTracker := (t.eventSet, t)

/-- Feed a whole RX line sequence through `on_rx`, collecting each call's
boolean result (the RX printer calls `on_rx` once per received line, in
arrival order). -/
def feed (t : AckTracker) : List String → List Bool × AckTracker
  | [] => ([], t)
  | l :: ls =>
      let (b, t') := t.on_rx l
      let (bs, t'') := t'.feed ls
      (b :: bs, t'')

end AckTracker

/-! ## `_parse_inject_ack` (fi/core/injector.py, lines 70–88) -/

/-- One line of the `_parse_inject_ack` loop body, updating the
`(echo, sc10, sc00)` flags. -/
def parseInjectAckStep (acc : Bool × Bool × Bool) (ln : String) : Bool × Bool × Bool :=
  let (e, s10, s00) := acc
  let e := e || matchEchoN ln.data
  match matchSC ln.data with
  | none => (e, s10, s00)
  | some val =>
      if val = 16 then (e, true, s00)
      else if val = 0 then (e, s10, true)
      else (e, s10, s00)

/-- `_parse_inject_ack(lines) -> (echo, sc10, sc00)`. -/
def parseInjectAck (lines : List String) : Bool × Bool × Bool :=
  lines.foldl parseInjectAckStep (false, false, false)

/-- Whether a line is an `SC 10` status line. -/
def isSC10 (ln : String) : Bool := matchSC ln.data == some 16

/-- Whether a line is an `SC 00` status line. -/
def isSC00 (ln : String) : Bool := matchSC ln.data == some 0

/-! ## Area profile: shared helpers (fi/area/base.py)

The file itself is out of the embedding's reach (it lives on disk); the
loader is modelled on the file's raw lines, in order. -/

/-- `load_addresses_file`: strip each raw line, drop blanks and lines
starting with `#`, keep the rest in file order. -/
def load_addresses_file (rawLines : List String) : List String :=
  rawLines.filterMap fun raw =>
    let s := pyStrip raw
    if s = "" then none
    else if s.data.headD ' ' = '#' then none
    else some s

/-- In-place swap of positions `i` and `j`, as `x[i], x[j] = x[j], x[i]`. -/
def swapList (xs : List String) (i j : Nat) : List String :=
  match xs.get? i, xs.get? j with
  | some a, some b => (xs.set i b).set j a
  | _, _ => xs

/-- One sweep of CPython's `random.shuffle` (Fisher–Yates):
`for i in reversed(range(1, len(x))): j = randbelow(i+1); swap i j`.
`rb bound` stands for the generator's `_randbelow(bound)` draw at the call
with that bound (each bound occurs at most once in this loop); the `%` keeps
the model's draw in range for arbitrary `rb`. -/
def pyShuffleAux (rb : Nat → Nat) : Nat → List String → List String
  | 0, xs => xs
  | Nat.succ k, xs =>
      pyShuffleAux rb k (swapList xs (Nat.succ k) (rb (Nat.succ k + 1) % (Nat.succ k + 1)))

/-- `random.Random(seed).shuffle(out)`: the draw stream `rb` is the
deterministic function of the seed realized by the Mersenne Twister. -/
def pyShuffle (rb : Nat → Nat) (xs : List String) : List String :=
  pyShuffleAux rb (xs.length - 1) xs

/-- `apply_ordering(addresses, order, seed)` (fi/area/base.py, lines 72–90):
normalize the order string; `"shuffle"` applies the seeded Fisher–Yates,
anything else preserves the input order. -/
def apply_ordering (addresses : List String) (order : String) (rb : Nat → Nat) :
    List String :=
  let ord := pyLower (pyStrip order)
  let out := addresses
  if ord = "shuffle" then pyShuffle rb out else out

/-! ## Area profile: address_list (fi/area/address_list.py) -/

/-- `_HEX10_RE = ^[0-9A-Fa-f]{10}$`. -/
def isHex10 (s : String) : Bool :=
  s.data.length = 10 && s.data.all isHexDigitChar

/-- The validation loop of `Profile.__init__` (lines 83–88): strip each
loaded line, reject the construction at the first line that is not 10 hex
digits, otherwise collect the uppercased addresses in order. -/
def validateAddrs : List String → Except String (List String)
  | [] => .ok []
  | line :: rest =>
      let s := pyStrip line
      if isHex10 s then
        match validateAddrs rest with
        | .ok tail => .ok (pyUpper s :: tail)
        | .error e => .error e
      else
        .error ("address_list: invalid LFA: " ++ line)

/-- `resolveOneMode`: one candidate of the canonical-mode loop
(lines 96–105): normalized `"sequential"`/`"random"` are taken as-is, the
legacy alias `"shuffle"` maps to `"random"`, anything else is skipped. -/
def resolveOneMode (c : String) : Option String :=
  let s := pyLower (pyStrip c)
  if s = "sequential" || s = "random" then some s
  else if s = "shuffle" then some "random"
  else none

/-- The `for candidate in (mode_val, order_val)` loop: first candidate that
resolves wins. -/
def canonicalMode (modeVal orderVal : Option String) : Option String :=
  match modeVal.bind resolveOneMode with
  | some s => some s
  | none => orderVal.bind resolveOneMode

/-- The address_list profile's runtime state: the ordered validated
addresses and the cursor. -/
structure AddrListProfile where
  addrs : List String
  idx : Nat
deriving DecidableEq, Repr

/-- `Profile.__init__` of fi/area/address_list.py, modelled from the file's
raw lines (path resolution and `os.path.isfile` are I/O and precede this
logic): load, validate/normalize, resolve the mode, order, cursor at 0.
`rb` stands for the `random.Random(seed)` draw stream (see `pyShuffle`). -/
def addressListInit (rawLines : List String) (modeVal orderVal : Option String)
    (rb : Nat → Nat) : Except String AddrListProfile :=
  let raw_addrs := load_addresses_file rawLines
  match validateAddrs raw_addrs with
  | .error e => .error e
  | .ok addrs =>
      match canonicalMode modeVal orderVal with
      | none => .error "address_list: mode must be sequential or random"
      | some canonical =>
          let base_order := if canonical = "random" then "shuffle" else "sequential"
          let ordered := apply_ordering addrs base_order rb
          .ok { addrs := ordered, idx := 0 }

namespace AddrListProfile

/-- `next_address()`: next LFA or `None` when exhausted; advances the
cursor on success. -/
def next_address (p : AddrListProfile) : Option String × AddrListProfile :=
  if h : p.idx < p.addrs.length then
    (some (p.addrs.get ⟨p.idx, h⟩), { p with idx := p.idx + 1 })
  else (none, p)

/-- Structural engine for the `iter_addresses` loop: the fuel is an upper
bound on the remaining iterations (`len - idx` at the first call), so the
recursion is structural and reduces by evaluation. -/
def iterFromGo : Nat → List String → Nat → List String
  | 0, _, _ => []
  | Nat.succ fuel, addrs, idx =>
      if h : idx < addrs.length then
        addrs.get ⟨idx, h⟩ :: iterFromGo fuel addrs (idx + 1)
      else []

/-- The generator loop of `iter_addresses`:
`while self._idx < len(self._addrs): yield self.next_address()`. -/
def iterFrom (addrs : List String) (idx : Nat) : List String :=
  iterFromGo (addrs.length - idx) addrs idx

/-- `iter_addresses()`: all remaining addresses from the current cursor. -/
def iter_addresses (p : AddrListProfile) : List String :=
  iterFrom p.addrs p.idx

/-- `reset()`: rewind the cursor. -/
def reset (p : AddrListProfile) : AddrListProfile := { p with idx := 0 }

end AddrListProfile

/-! ## End-condition prompts (fi/area/address_list.py 159–168,
fi/time/uniform.py 172–182) -/

/-- `dict.get(key, "")` over an association list. -/
def dictGetD (table : List (String × String)) (key : String) : String :=
  match table.find? (fun kv => kv.1 = key) with
  | some kv => kv.2
  | none => ""

/-- `_END_MESSAGES` of fi/area/address_list.py. -/
def addressListEndMessages : List (String × String) :=
  [("exhausted", "Address list exhausted.")]

/-- `Profile.end_condition_prompt` of the address_list area profile:
`_END_MESSAGES.get(str(reason).strip().lower(), "")`. -/
def addressListEndConditionPrompt (reason : String) : String :=
  dictGetD addressListEndMessages (pyLower (pyStrip reason))

/-- `_END_MESSAGES` of fi/time/uniform.py. -/
def uniformEndMessages : List (String × String) :=
  [("duration_elapsed", "Duration limit reached."),
   ("max_reached", "Maximum shots limit reached.")]

/-- `Profile.end_condition_prompt` of the uniform time profile. -/
def uniformEndConditionPrompt (reason : String) : String :=
  dictGetD uniformEndMessages (pyLower (pyStrip reason))

/-! ## Uniform time profile: `Profile.run` (fi/time/uniform.py, 197–264)

The loop is modelled as a pure recursion over the address sequence produced
by `_addr_iter` (fi/time/base.py, lines 95–120; for the address_list area
profile this is `iter_addresses`, i.e. the remaining addresses in order).

Timing is supplied by oracles indexed by the loop-iteration number:
`stop k` is `stop_evt.is_set()` at iteration `k` (the pause loop is
modelled with `pause_evt` never set, which is the configuration of the
scenarios under proof); `elapsed k` is `self._now() - t0` at iteration
`k`'s duration check; `nowAt k` is `self._now()` at iteration `k`'s
deadline computation (used only on the branches that read the clock).
`self._inject(addr)` logs and transmits `"N " ++ addr`; the scheduler body
contains no RX read of any kind, so the emitted trace has only TX
commands. -/

structure UniformCfg where
  period : ℚ
  duration_s : Option ℚ
  ack : Bool
  max_shots : Option Nat
deriving DecidableEq, Repr

structure RunResult where
  /-- The `N <addr>` commands transmitted, in order. -/
  sent : List String
  /-- The scheduled deadline computed after each transmitted shot. -/
  deadlines : List ℚ
  /-- `self.finished_reason` when `run()` returns. -/
  reason : Option String
deriving DecidableEq, Repr

/-- Prepend one shot's command and deadline to a later result. -/
def RunResult.consShot (cmd : String) (dl : ℚ) (r : RunResult) : RunResult :=
  { sent := cmd :: r.sent, deadlines := dl :: r.deadlines, reason := r.reason }

/-- The duration end check of `run` (uniform.py lines 217–221): hit only
when a duration is configured and `self._now() - t0` has reached it. -/
def durationHit (cfg : UniformCfg) (elapsedNow : ℚ) : Bool :=
  match cfg.duration_s with
  | some d => decide (elapsedNow ≥ d)
  | none => false

/-- The max-shots guard of `run` (uniform.py lines 224–227). -/
def maxShotsHit (cfg : UniformCfg) (shots : Nat) : Bool :=
  match cfg.max_shots with
  | some m => decide (shots ≥ m)
  | none => false

/-- The body of `Profile.run`, recursing over the addresses yielded by the
iterator; `shots` and `k` are the loop's counters (both 0 at loop entry). -/
def uniformRunAux (cfg : UniformCfg) (stop : Nat → Bool) (elapsed : Nat → ℚ)
    (nowAt : Nat → ℚ) (t0 : ℚ) : Nat → Nat → Nat → List String → RunResult
  | _, _, _, [] => { sent := [], deadlines := [], reason := none }
  | iter, shots, k, addr :: rest =>
      if stop iter then
        -- `break`: the loop exits, `finished_reason` stays as it was (none).
        { sent := [], deadlines := [], reason := none }
      else
        -- Duration end check (only when configured).
        if durationHit cfg (elapsed iter) then
          { sent := [], deadlines := [], reason := some "duration_elapsed" }
        -- Max shots guard (optional).
        else if maxShotsHit cfg shots then
          { sent := [], deadlines := [], reason := some "max_reached" }
        else
          -- `_maybe_first_shot_delay()` only sleeps; then transmit.
          if cfg.ack then
            -- ACK gating anchors cadence to the post-wait clock.
            let k' := k + 1
            let next_deadline :=
              if cfg.period > 0 then nowAt iter + cfg.period else nowAt iter
            RunResult.consShot ("N " ++ addr) next_deadline
              (uniformRunAux cfg stop elapsed nowAt t0 (iter + 1) (shots + 1) k' rest)
          else
            let k' := k + 1
            let next_deadline :=
              if cfg.period > 0 then t0 + (k' : ℚ) * cfg.period else nowAt iter
            RunResult.consShot ("N " ++ addr) next_deadline
              (uniformRunAux cfg stop elapsed nowAt t0 (iter + 1) (shots + 1) k' rest)

/-- `Profile.run()` over a given address sequence, with `t0 = self._now()`
taken once at loop start and both counters starting at 0. -/
def uniformRun (cfg : UniformCfg) (stop : Nat → Bool) (elapsed : Nat → ℚ)
    (nowAt : Nat → ℚ) (t0 : ℚ) (addrs : List String) : RunResult :=
  uniformRunAux cfg stop elapsed nowAt t0 0 0 0 addrs

/-! ## Rate cap reconciliation (fi/fault_injection.py, 370–435)

Settings attributes are read with `getattr(settings, key, default)`; the
concrete `fi/settings.py` is outside the protocol engine, so the five
constants are the fields of `RateSettings` (the getattr defaults appear in
concrete witnesses). Python floats are modelled as `ℚ`; the final
`f"{x:.12g}"` re-formatting of the rewritten kwargs is treated as the
identity on the value. -/

structure RateSettings where
  icap_fmax : ℚ   -- SEM_ICAP_FMAX_HZ          (getattr default 200_000_000)
  sem_clk : ℚ     -- SEM_FREQ_HZ               (getattr default 100_000_000)
  lat_us : ℚ      -- SEM_INJECT_LATENCY_US_AT_FMAX (getattr default 50.0)
  derate : ℚ      -- INJECTION_RATE_SAFETY_DERATE  (getattr default 1.0)
  uart_cap : ℚ    -- INJECTION_RATE_UART_CAP_HZ    (getattr default 0.0)
deriving DecidableEq, Repr

/-- The getattr defaults of `_compute_platform_max_rate_hz`. -/
def defaultRateSettings : RateSettings :=
  { icap_fmax := 200000000, sem_clk := 100000000, lat_us := 50,
    derate := 1, uart_cap := 0 }

/-- `_compute_platform_max_rate_hz()`. -/
def computePlatformMaxRateHz (s : RateSettings) : ℚ :=
  let lat_s_at_fmax := max (1 / 1000000000) (s.lat_us / 1000000)
  let scale := s.icap_fmax / max 1 s.sem_clk
  let lat_actual_s := lat_s_at_fmax * scale
  let max_rate0 := (1 / lat_actual_s) * max 0 (min 1 s.derate)
  let max_rate1 := if s.uart_cap > 0 then min max_rate0 s.uart_cap else max_rate0
  max 0 max_rate1

/-- The `rate_hz` / `period_s` entries of the time-profile kwargs dict.
`none` covers both an absent key and a value on which the `float(...)`
parse fails (the code treats the two identically). Other entries are
carried through untouched and are not represented. -/
structure TimeKwargs where
  rate_hz : Option ℚ
  period_s : Option ℚ
deriving DecidableEq, Repr

/-- `_resolve_requested_rate_hz(time_kwargs)`: prefer `rate_hz`; else
`1/period_s` when the period is positive; else no request. -/
def resolveRequestedRateHz (kw : TimeKwargs) : Option ℚ :=
  match kw.rate_hz with
  | some r => some r
  | none =>
      match kw.period_s with
      | some p => if p > 0 then some (1 / p) else none
      | none => none

/-- `_reconcile_and_cap_time_kwargs(time_kwargs)`: returns
`(new_kwargs, req_rate_hz, cap_rate_hz)` (the advisory message is
presentation only and dropped here). -/
def reconcileAndCapTimeKwargs (kw : TimeKwargs) (s : RateSettings) :
    TimeKwargs × Option ℚ × ℚ :=
  let req := resolveRequestedRateHz kw
  let cap := computePlatformMaxRateHz s
  match req with
  | none => (kw, none, cap)
  | some r =>
      let eff := if cap > 0 then min r cap else r
      let kw' :=
        if eff > 0 then { kw with rate_hz := some eff, period_s := some (1 / eff) }
        else kw
      (kw', some r, cap)

/-- `_HEX10_RE`-validated-and-uppercased address shape: exactly 10
characters, each an uppercase hex digit. -/
def validAddr (a : String) : Bool :=
  a.data.length = 10 && a.data.all isUpperHexDigitChar

/-! # Theorems -/

/-! ## Shared lemmas about `_parse_inject_ack` and `_AckTracker` -/

lemma parseInjectAckStep_eq (acc : Bool × Bool × Bool) (l : String) :
    parseInjectAckStep acc l =
      (acc.1 || matchEchoN l.data, acc.2.1 || isSC10 l, acc.2.2 || isSC00 l) := by
  obtain ⟨e, s10, s00⟩ := acc
  simp only [parseInjectAckStep, isSC10, isSC00]
  rcases h : matchSC l.data with _ | v
  · simp
  · by_cases h16 : v = 16
    · subst h16; simp
    · by_cases h0 : v = 0
      · subst h0; simp
      · simp [h16, h0]

lemma parseInjectAck_foldl (lines : List String) : ∀ acc : Bool × Bool × Bool,
    lines.foldl parseInjectAckStep acc =
      (acc.1 || lines.any (fun l => matchEchoN l.data),
       acc.2.1 || lines.any isSC10,
       acc.2.2 || lines.any isSC00) := by
  induction lines with
  | nil => intro acc; simp
  | cons l ls ih =>
      intro acc
      simp only [List.foldl_cons, List.any_cons, ih, parseInjectAckStep_eq, Bool.or_assoc]

lemma on_rx_not_pending (t : AckTracker) (l : String) (h : t.pending = false) :
    t.on_rx l = (false, t) := by
  simp [AckTracker.on_rx, h]

lemma feed_not_pending (t : AckTracker) (ls : List String) (h : t.pending = false) :
    t.feed ls = (List.replicate ls.length false, t) := by
  induction ls with
  | nil => simp [AckTracker.feed]
  | cons l ls ih =>
      simp [AckTracker.feed, on_rx_not_pending t l h, ih, List.replicate_succ]

lemma on_rx_armed_sc00 (t : AckTracker) (l : String) (hp : t.pending = true)
    (h : isSC00 l = true) :
    t.on_rx l = (true, { pending := false, eventSet := true }) := by
  obtain ⟨p, e⟩ := t
  obtain rfl : p = true := hp
  have hm : matchSC l.data = some 0 := by simpa [isSC00] using h
  simp [AckTracker.on_rx, hm]

lemma on_rx_armed_not_sc00 (t : AckTracker) (l : String) (hp : t.pending = true)
    (h : isSC00 l = false) :
    t.on_rx l = (false, t) := by
  obtain ⟨p, e⟩ := t
  obtain rfl : p = true := hp
  rcases hm : matchSC l.data with _ | v
  · simp [AckTracker.on_rx, hm]
  · have hv : ¬ v = 0 := by
      intro h0
      subst h0
      simp [isSC00, hm] at h
    simp [AckTracker.on_rx, hm, hv]

lemma feed_armed_count (ls : List String) : ∀ t : AckTracker, t.pending = true →
    ((t.feed ls).1.count true) = (if ls.any isSC00 then 1 else 0) := by
  induction ls with
  | nil => intro t _; simp [AckTracker.feed]
  | cons l ls ih =>
      intro t ht
      by_cases hl : isSC00 l = true
      · have hfeed := feed_not_pending
          ({ pending := false, eventSet := true } : AckTracker) ls rfl
        simp [AckTracker.feed, on_rx_armed_sc00 t l ht hl, hfeed, hl,
          List.count_replicate]
      · have hl' : isSC00 l = false := by simpa using hl
        simp [AckTracker.feed, on_rx_armed_not_sc00 t l ht hl', ih t ht, hl']

/-! ## Claim C1 -/

/-- C1, counterexample: after `start()` arms the tracker, a bare `SC 00`
line — with no prior injection echo and no prior `SC 10` — resolves the
pending acknowledgement (`on_rx` returns `True`), contradicting the claim
that a pending acknowledgement is never resolved by a bare `SC 00`. -/
theorem ack_bare_sc00_resolves_pending_cex :
    ((AckTracker.init.start).on_rx "SC 00").1 = true ∧
    ((AckTracker.init.start).on_rx "SC 00").2.pending = false := by decide

/-- C1, amended: the campaign-path tracker (`_AckTracker.on_rx`) resolves a
pending acknowledgement on any `SC 00` status line, regardless of prior
`SC 10` or echo lines; the console helper's `_parse_inject_ack` recognizes
a full acknowledgement exactly when an echo line, an `SC 10` line and an
`SC 00` line have each been observed somewhere in the reply window, in any
order (its three flags are order-insensitive presence bits). -/
theorem ack_recognition_characterization (t : AckTracker) (lines : List String)
    (h : t.pending = true) :
    (t.on_rx "SC 00").1 = true ∧
    parseInjectAck lines =
      (lines.any (fun l => matchEchoN l.data), lines.any isSC10, lines.any isSC00) := by
  constructor
  · obtain ⟨p, e⟩ := t
    obtain rfl : p = true := h
    cases e <;> decide
  · simpa [parseInjectAck] using parseInjectAck_foldl lines (false, false, false)

/-- Witness for `ack_recognition_characterization` at a freshly armed
tracker and a concrete out-of-order reply window. -/
theorem ack_recognition_characterization_witness :
    (AckTracker.init.start).pending = true ∧
    ((AckTracker.init.start).on_rx "SC 00").1 = true ∧
    parseInjectAck ["SC 00", "SC 10", "I> N 0011223344"] =
      (["SC 00", "SC 10", "I> N 0011223344"].any (fun l => matchEchoN l.data),
       ["SC 00", "SC 10", "I> N 0011223344"].any isSC10,
       ["SC 00", "SC 10", "I> N 0011223344"].any isSC00) :=
  ⟨rfl, ack_recognition_characterization (AckTracker.init.start)
    ["SC 00", "SC 10", "I> N 0011223344"] rfl⟩

/-! ## Claim C2 -/

/-- C2: once `start()` has armed the tracker, feeding any RX line sequence
that contains an `SC 00` line (in particular echo, then `SC 10`, then
`SC 00`) makes `on_rx` return `True` for exactly one call; and a tracker
that is not pending — the freshly constructed tracker included — returns
`False` for every line of any sequence, `SC 00` included. -/
theorem ack_tracker_resolves_exactly_once (ls : List String) (t : AckTracker)
    (hsc : ls.any isSC00 = true) (hun : t.pending = false) :
    ((AckTracker.init.start).feed ls).1.count true = 1 ∧
    (t.feed ls).1 = List.replicate ls.length false ∧
    AckTracker.init.pending = false := by
  refine ⟨?_, (feed_not_pending t ls hun) ▸ rfl, rfl⟩
  rw [feed_armed_count ls AckTracker.init.start rfl, hsc]
  rfl

/-- Witness for `ack_tracker_resolves_exactly_once`: the echo → `SC 10` →
`SC 00` sequence resolves exactly once for an armed tracker; an unarmed
tracker ignores a bare `SC 00`. -/
theorem ack_tracker_resolves_exactly_once_witness :
    (["I> N 00AABBCCDD", "SC 10", "SC 00", "SC 00"].any isSC00 = true) ∧
    AckTracker.init.pending = false ∧
    ((AckTracker.init.start).feed
        ["I> N 00AABBCCDD", "SC 10", "SC 00", "SC 00"]).1.count true = 1 ∧
    (AckTracker.init.feed ["SC 00"]).1 = List.replicate 1 false := by
  have h1 := ack_tracker_resolves_exactly_once
    ["I> N 00AABBCCDD", "SC 10", "SC 00", "SC 00"] AckTracker.init (by decide) rfl
  have h2 := ack_tracker_resolves_exactly_once ["SC 00"] AckTracker.init (by decide) rfl
  exact ⟨by decide, rfl, h1.1, h2.2.1⟩

/-! ## Claim C8 -/

/-- C8: `wait(timeout)` never modifies the tracker — after a timed-out
wait the state is exactly what it was, so the pending flag is still set, a
matching `SC 00` arriving later still resolves that pending
acknowledgement, and the next `start()` resets the tracker to
pending-with-cleared-event, erasing any prior resolution. -/
theorem ack_wait_preserves_state (t : AckTracker) (h : t.pending = true) :
    (t.wait).2 = t ∧
    (t.wait).2.pending = true ∧
    ((t.wait).2.on_rx "SC 00").1 = true ∧
    (((t.wait).2.on_rx "SC 00").2).start = { pending := true, eventSet := false } := by
  refine ⟨rfl, h, ?_, rfl⟩
  obtain ⟨p, e⟩ := t
  obtain rfl : p = true := h
  cases e <;> decide

/-! ## Claim C10 -/

/-- C10: `end_condition_prompt` is a total function of the reason string.
The address_list area profile returns its fixed message exactly when the
trimmed, lowercased reason is `exhausted`; the uniform time profile
returns its fixed messages exactly for `duration_elapsed` and
`max_reached`; every other reason yields the empty string. -/
theorem end_condition_prompt_tables (reason : String) :
    addressListEndConditionPrompt reason =
      (if pyLower (pyStrip reason) = "exhausted" then "Address list exhausted." else "") ∧
    uniformEndConditionPrompt reason =
      (if pyLower (pyStrip reason) = "duration_elapsed" then "Duration limit reached."
       else if pyLower (pyStrip reason) = "max_reached" then "Maximum shots limit reached."
       else "") := by
  constructor
  · by_cases h : pyLower (pyStrip reason) = "exhausted"
    · simp [addressListEndConditionPrompt, dictGetD, addressListEndMessages,
        List.find?, h]
    · have h' : ¬ ("exhausted" = pyLower (pyStrip reason)) := fun hh => h hh.symm
      simp [addressListEndConditionPrompt, dictGetD, addressListEndMessages,
        List.find?, h, h']
  · by_cases h1 : pyLower (pyStrip reason) = "duration_elapsed"
    · simp [uniformEndConditionPrompt, dictGetD, uniformEndMessages, List.find?, h1]
    · have h1' : ¬ ("duration_elapsed" = pyLower (pyStrip reason)) :=
        fun hh => h1 hh.symm
      by_cases h2 : pyLower (pyStrip reason) = "max_reached"
      · simp [uniformEndConditionPrompt, dictGetD, uniformEndMessages, List.find?,
          h1, h1', h2]
      · have h2' : ¬ ("max_reached" = pyLower (pyStrip reason)) :=
          fun hh => h2 hh.symm
        simp [uniformEndConditionPrompt, dictGetD, uniformEndMessages, List.find?,
          h1, h1', h2, h2']

/-! ## Claim C9 -/

/-- C9: before a time profile is armed, the controller's reconciliation
rewrites the time kwargs so that the effective rate is the minimum of the
requested rate (resolved from `rate_hz`, or `1/period_s` for a positive
period) and the platform maximum rate computed from settings; and whenever
that effective rate is positive, the rewritten `rate_hz` and `period_s`
are exact reciprocals of each other. -/
theorem rate_reconciliation (kw : TimeKwargs) (s : RateSettings) (r : ℚ)
    (hreq : resolveRequestedRateHz kw = some r) (hr : 0 < r)
    (hcap : 0 < computePlatformMaxRateHz s) :
    ((reconcileAndCapTimeKwargs kw s).1.rate_hz =
        some (min r (computePlatformMaxRateHz s))) ∧
    ((reconcileAndCapTimeKwargs kw s).1.period_s =
        some (1 / min r (computePlatformMaxRateHz s))) ∧
    (min r (computePlatformMaxRateHz s)) * (1 / min r (computePlatformMaxRateHz s)) = 1 := by
  have heff : 0 < min r (computePlatformMaxRateHz s) := lt_min hr hcap
  simp only [reconcileAndCapTimeKwargs, hreq, if_pos hcap, if_pos heff]
  refine ⟨trivial, trivial, ?_⟩
  field_simp

/-- Witness for `rate_reconciliation`: a 50 kHz request against the
getattr-default settings (platform cap 10 kHz) is capped to 10 kHz with a
100 µs period. -/
theorem rate_reconciliation_witness :
    resolveRequestedRateHz { rate_hz := some 50000, period_s := none } = some 50000 ∧
    (0 : ℚ) < 50000 ∧
    0 < computePlatformMaxRateHz defaultRateSettings ∧
    ((reconcileAndCapTimeKwargs { rate_hz := some 50000, period_s := none }
        defaultRateSettings).1.rate_hz =
      some (min 50000 (computePlatformMaxRateHz defaultRateSettings))) ∧
    ((reconcileAndCapTimeKwargs { rate_hz := some 50000, period_s := none }
        defaultRateSettings).1.period_s =
      some (1 / min 50000 (computePlatformMaxRateHz defaultRateSettings))) ∧
    (min 50000 (computePlatformMaxRateHz defaultRateSettings)) *
      (1 / min 50000 (computePlatformMaxRateHz defaultRateSettings)) = 1 := by
  have hcap : (0 : ℚ) < computePlatformMaxRateHz defaultRateSettings := by
    norm_num [computePlatformMaxRateHz, defaultRateSettings]
  have h := rate_reconciliation { rate_hz := some 50000, period_s := none }
    defaultRateSettings 50000 rfl (by norm_num) hcap
  exact ⟨rfl, by norm_num, hcap, h.1, h.2.1, h.2.2⟩

/-! ## Claim C8 -/

/-! ## Shared lemmas about the address iterator and the uniform run loop -/

lemma iterFromGo_eq_drop : ∀ (fuel : Nat) (addrs : List String) (idx : Nat),
    addrs.length - idx ≤ fuel →
      AddrListProfile.iterFromGo fuel addrs idx = addrs.drop idx := by
  intro fuel
  induction fuel with
  | zero =>
      intro addrs idx h
      have hle : addrs.length ≤ idx := by omega
      simp [AddrListProfile.iterFromGo, List.drop_eq_nil_of_le hle]
  | succ fuel ih =>
      intro addrs idx h
      by_cases hlt : idx < addrs.length
      · rw [AddrListProfile.iterFromGo, dif_pos hlt, ih addrs (idx + 1) (by omega),
          List.drop_eq_getElem_cons hlt]
        rfl
      · have hle : addrs.length ≤ idx := by omega
        simp [AddrListProfile.iterFromGo, hlt, List.drop_eq_nil_of_le hle]

lemma iterFrom_eq_drop (addrs : List String) (idx : Nat) :
    AddrListProfile.iterFrom addrs idx = addrs.drop idx :=
  iterFromGo_eq_drop _ addrs idx le_rfl

lemma uniformRunAux_no_bounds (cfg : UniformCfg) (stop : Nat → Bool)
    (elapsed nowAt : Nat → ℚ) (t0 : ℚ) (hstop : ∀ n, stop n = false)
    (hdur : cfg.duration_s = none) (hmax : cfg.max_shots = none) :
    ∀ (addrs : List String) (iter shots k : Nat),
      (uniformRunAux cfg stop elapsed nowAt t0 iter shots k addrs).sent =
        addrs.map (fun a => "N " ++ a) ∧
      (uniformRunAux cfg stop elapsed nowAt t0 iter shots k addrs).reason = none := by
  intro addrs
  induction addrs with
  | nil => intro iter shots k; simp [uniformRunAux]
  | cons a rest ih =>
      intro iter shots k
      have hd : durationHit cfg (elapsed iter) = false := by simp [durationHit, hdur]
      have hm : maxShotsHit cfg shots = false := by simp [maxShotsHit, hmax]
      by_cases hack : cfg.ack <;>
        simp [uniformRunAux, hstop iter, hd, hm, hack, RunResult.consShot,
          (ih (iter + 1) (shots + 1) (k + 1)).1, (ih (iter + 1) (shots + 1) (k + 1)).2]

lemma range_map_shift (t0 P : ℚ) (k n : Nat) :
    (t0 + ((k + 1 : Nat) : ℚ) * P) ::
      (List.range n).map (fun i => t0 + ((k + 1 + i + 1 : Nat) : ℚ) * P) =
    (List.range (n + 1)).map (fun i => t0 + ((k + i + 1 : Nat) : ℚ) * P) := by
  rw [List.range_succ_eq_map, List.map_cons, List.map_map]
  congr 1
  apply List.map_congr_left
  intro i _
  simp only [Function.comp_apply]
  congr 1
  push_cast
  ring

lemma uniformRunAux_deadlines (cfg : UniformCfg) (stop : Nat → Bool)
    (elapsed nowAt : Nat → ℚ) (t0 : ℚ) (hack : cfg.ack = false)
    (hP : 0 < cfg.period) :
    ∀ (addrs : List String) (iter shots k : Nat),
      (uniformRunAux cfg stop elapsed nowAt t0 iter shots k addrs).deadlines =
        (List.range
            (uniformRunAux cfg stop elapsed nowAt t0 iter shots k addrs).sent.length).map
          (fun i => t0 + ((k + i + 1 : Nat) : ℚ) * cfg.period) := by
  intro addrs
  induction addrs with
  | nil => intro iter shots k; simp [uniformRunAux]
  | cons a rest ih =>
      intro iter shots k
      by_cases hs : stop iter
      · simp [uniformRunAux, hs]
      · by_cases hd : durationHit cfg (elapsed iter)
        · simp [uniformRunAux, hs, hd]
        · by_cases hm : maxShotsHit cfg shots
          · simp [uniformRunAux, hs, hd, hm]
          · simp only [uniformRunAux, hs, hd, hm, hack, Bool.false_eq_true,
              if_false, if_pos hP, RunResult.consShot,
              ih (iter + 1) (shots + 1) (k + 1), List.length_cons]
            exact range_map_shift t0 cfg.period k _

/-! ## Claim C5 -/

/-- C5: for the uniform scheduler with a positive period and ack-gating
disabled, the deadline scheduled after the k-th transmitted injection
(k = 1, 2, …) is exactly `t0 + k * period`, where `t0` is the origin taken
once at loop start — the deadline list is the image of the shot index
under that fixed-origin formula, under any stop schedule and any bound
configuration, so scheduling delay never accumulates. -/
theorem uniform_drift_free_cadence (cfg : UniformCfg) (stop : Nat → Bool)
    (elapsed nowAt : Nat → ℚ) (t0 : ℚ) (addrs : List String)
    (hack : cfg.ack = false) (hP : 0 < cfg.period) :
    (uniformRun cfg stop elapsed nowAt t0 addrs).deadlines =
      (List.range (uniformRun cfg stop elapsed nowAt t0 addrs).sent.length).map
        (fun k => t0 + ((k + 1 : Nat) : ℚ) * cfg.period) := by
  have h := uniformRunAux_deadlines cfg stop elapsed nowAt t0 hack hP addrs 0 0 0
  simpa [uniformRun] using h

/-- Witness for `uniform_drift_free_cadence`: period 2 from origin 7 gives
deadlines 9 and 11 for two shots. -/
theorem uniform_drift_free_cadence_witness :
    ({ period := 2, duration_s := none, ack := false, max_shots := none } :
        UniformCfg).ack = false ∧
    (0 : ℚ) < ({ period := 2, duration_s := none, ack := false, max_shots := none } :
        UniformCfg).period ∧
    (uniformRun { period := 2, duration_s := none, ack := false, max_shots := none }
        (fun _ => false) (fun _ => 0) (fun _ => 0) 7
        ["AAAAAAAAAA", "BBBBBBBBBB"]).deadlines =
      (List.range
          (uniformRun { period := 2, duration_s := none, ack := false, max_shots := none }
            (fun _ => false) (fun _ => 0) (fun _ => 0) 7
            ["AAAAAAAAAA", "BBBBBBBBBB"]).sent.length).map
        (fun k => (7 : ℚ) + ((k + 1 : Nat) : ℚ) * 2) :=
  ⟨rfl, by norm_num,
    uniform_drift_free_cadence _ (fun _ => false) (fun _ => 0) (fun _ => 0) 7
      ["AAAAAAAAAA", "BBBBBBBBBB"] rfl (by norm_num)⟩

/-! ## Claim C4 -/

/-- C4: when no duration, no shot cap and no stop flag is in play, the
uniform scheduler runs the address sequence to exhaustion — it transmits
exactly one `N <addr>` command per served address and then terminates with
`finished_reason` still unset (`none`), i.e. it does not self-report an
"area exhausted" reason; the exhaustion itself is what the caller of the
address sequence observes: once the cursor has passed the end,
`next_address` returns `none`. -/
theorem uniform_area_exhaustion (cfg : UniformCfg) (stop : Nat → Bool)
    (elapsed nowAt : Nat → ℚ) (t0 : ℚ) (p : AddrListProfile)
    (hstop : ∀ n, stop n = false) (hdur : cfg.duration_s = none)
    (hmax : cfg.max_shots = none) :
    (uniformRun cfg stop elapsed nowAt t0 p.iter_addresses).sent =
      p.iter_addresses.map (fun a => "N " ++ a) ∧
    (uniformRun cfg stop elapsed nowAt t0 p.iter_addresses).reason = none ∧
    (AddrListProfile.next_address { addrs := p.addrs, idx := p.addrs.length }).1 =
      none := by
  have h := uniformRunAux_no_bounds cfg stop elapsed nowAt t0 hstop hdur hmax
    p.iter_addresses 0 0 0
  refine ⟨h.1, h.2, ?_⟩
  simp [AddrListProfile.next_address]

/-- Witness for `uniform_area_exhaustion` on a two-address profile. -/
theorem uniform_area_exhaustion_witness :
    (uniformRun { period := 1/10, duration_s := none, ack := false, max_shots := none }
        (fun _ => false) (fun _ => 0) (fun _ => 0) 0
        (AddrListProfile.iter_addresses { addrs := ["000ABC1234", "FFFF000000"], idx := 0 })).sent =
      (AddrListProfile.iter_addresses
          { addrs := ["000ABC1234", "FFFF000000"], idx := 0 }).map (fun a => "N " ++ a) ∧
    (uniformRun { period := 1/10, duration_s := none, ack := false, max_shots := none }
        (fun _ => false) (fun _ => 0) (fun _ => 0) 0
        (AddrListProfile.iter_addresses { addrs := ["000ABC1234", "FFFF000000"], idx := 0 })).reason =
      none ∧
    (AddrListProfile.next_address { addrs := ["000ABC1234", "FFFF000000"], idx := 2 }).1 =
      none :=
  uniform_area_exhaustion _ (fun _ => false) (fun _ => 0) (fun _ => 0) 0
    { addrs := ["000ABC1234", "FFFF000000"], idx := 0 } (fun _ => rfl) rfl rfl

/-! ## Claim C3 -/

/-- C3, counterexample: over a sequential list of exactly 3 valid LFAs
with `max_shots = 3`, the uniform scheduler's loop ends because the
address iterator is exhausted before the max-shots guard is ever evaluated
a 4th time, so `finished_reason` is `none` — not `max_reached` as the
claim states. -/
theorem uniform_three_addrs_max3_reason_cex :
    (uniformRun { period := 1/10, duration_s := none, ack := false, max_shots := some 3 }
        (fun _ => false) (fun _ => 0) (fun _ => 0) 0
        ["0000000000", "0000000001", "0000000002"]).reason = none ∧
    (uniformRun { period := 1/10, duration_s := none, ack := false, max_shots := some 3 }
        (fun _ => false) (fun _ => 0) (fun _ => 0) 0
        ["0000000000", "0000000001", "0000000002"]).reason ≠ some "max_reached" := by
  decide

/-- C3, amended: over a sequential address_list of exactly 3 valid LFAs
with `max_shots = 3`, the uniform scheduler sends exactly the 3 `N <addr>`
commands in file order (its loop body performs no RX read) and terminates
with `finished_reason` unset (`none`), the end being due to address
exhaustion; the reason `max_reached` is produced only when the sequence
supplies a further address after the cap is met, e.g. with 4 addresses and
`max_shots = 3`. -/
theorem uniform_three_addrs_max3_amended :
    ((addressListInit ["0000000000", "0000000001", "0000000002"]
        (some "sequential") none (fun _ => 0)).map
      (fun p =>
        ((uniformRun
            { period := 1/10, duration_s := none, ack := false, max_shots := some 3 }
            (fun _ => false) (fun _ => 0) (fun _ => 0) 0 p.iter_addresses).sent,
         (uniformRun
            { period := 1/10, duration_s := none, ack := false, max_shots := some 3 }
            (fun _ => false) (fun _ => 0) (fun _ => 0) 0 p.iter_addresses).reason)) =
      Except.ok (["N 0000000000", "N 0000000001", "N 0000000002"], none)) ∧
    ((uniformRun { period := 1/10, duration_s := none, ack := false, max_shots := some 3 }
        (fun _ => false) (fun _ => 0) (fun _ => 0) 0
        ["0000000000", "0000000001", "0000000002", "0000000003"]).sent =
      ["N 0000000000", "N 0000000001", "N 0000000002"]) ∧
    ((uniformRun { period := 1/10, duration_s := none, ack := false, max_shots := some 3 }
        (fun _ => false) (fun _ => 0) (fun _ => 0) 0
        ["0000000000", "0000000001", "0000000002", "0000000003"]).reason =
      some "max_reached") := by
  exact ⟨rfl, rfl, rfl⟩

/-! ## Shared lemmas about address validation and ordering -/

lemma upperChar_hex (c : Char) (h : isHexDigitChar c = true) :
    isUpperHexDigitChar (upperChar c) = true := by
  simp only [isHexDigitChar, Bool.or_eq_true, Bool.and_eq_true,
    decide_eq_true_eq] at h
  unfold upperChar
  split
  · next hb =>
      simp only [Bool.and_eq_true, decide_eq_true_eq] at hb
      have hlo : 97 ≤ c.toNat := hb.1
      have hhi : c.toNat ≤ 102 := by omega
      generalize hg : c.toNat = n at hlo hhi
      interval_cases n <;> decide
  · next hb =>
      simp only [Bool.and_eq_true, decide_eq_true_eq] at hb
      simp only [isUpperHexDigitChar, Bool.or_eq_true, Bool.and_eq_true,
        decide_eq_true_eq]
      omega

lemma validAddr_of_hex10 (s : String) (h : isHex10 s = true) :
    validAddr (pyUpper s) = true := by
  simp only [isHex10, Bool.and_eq_true, decide_eq_true_eq, List.all_eq_true] at h
  obtain ⟨hlen, hall⟩ := h
  simp only [validAddr, pyUpper, Bool.and_eq_true, decide_eq_true_eq,
    List.all_eq_true]
  refine ⟨?_, ?_⟩
  · show (s.data.map upperChar).length = 10
    simp [hlen]
  · intro c hc
    rcases List.mem_map.mp hc with ⟨d, hd, rfl⟩
    exact upperChar_hex d (hall d hd)

lemma validateAddrs_ok (ls : List String) (as : List String)
    (h : validateAddrs ls = .ok as) :
    as = ls.map (fun l => pyUpper (pyStrip l)) ∧
    ∀ a ∈ as, validAddr a = true := by
  induction ls generalizing as with
  | nil =>
      simp only [validateAddrs, Except.ok.injEq] at h
      subst h
      simp
  | cons l rest ih =>
      simp only [validateAddrs] at h
      by_cases hv : isHex10 (pyStrip l) = true
      · rw [if_pos hv] at h
        rcases hr : validateAddrs rest with e | tail
        · rw [hr] at h; cases h
        · rw [hr] at h
          obtain rfl : pyUpper (pyStrip l) :: tail = as := by injection h
          obtain ⟨h1, h2⟩ := ih tail hr
          refine ⟨by simp [h1], ?_⟩
          intro a ha
          rcases List.mem_cons.mp ha with rfl | ha'
          · exact validAddr_of_hex10 _ hv
          · exact h2 a ha'
      · rw [if_neg hv] at h; cases h

lemma validateAddrs_error_of_invalid (ls : List String) (l : String)
    (hmem : l ∈ ls) (hbad : isHex10 (pyStrip l) = false) :
    ∃ e, validateAddrs ls = .error e := by
  induction ls with
  | nil => cases hmem
  | cons x rest ih =>
      simp only [validateAddrs]
      by_cases hx : isHex10 (pyStrip x) = true
      · rw [if_pos hx]
        have hmem' : l ∈ rest := by
          rcases List.mem_cons.mp hmem with rfl | hm
          · simp [hx] at hbad
          · exact hm
        obtain ⟨e, he⟩ := ih hmem'
        rw [he]
        exact ⟨e, rfl⟩
      · rw [if_neg hx]
        exact ⟨"address_list: invalid LFA: " ++ x, rfl⟩

lemma swapList_mem (xs : List String) (i j : Nat) (a : String)
    (h : a ∈ swapList xs i j) : a ∈ xs := by
  unfold swapList at h
  rcases hi : xs.get? i with _ | b <;> rw [hi] at h
  · exact h
  · rcases hj : xs.get? j with _ | c <;> rw [hj] at h
    · exact h
    · rcases List.mem_or_eq_of_mem_set h with h' | rfl
      · rcases List.mem_or_eq_of_mem_set h' with h'' | rfl
        · exact h''
        · exact List.get?_mem hj
      · exact List.get?_mem hi

lemma pyShuffleAux_mem (rb : Nat → Nat) :
    ∀ (k : Nat) (xs : List String) (a : String),
      a ∈ pyShuffleAux rb k xs → a ∈ xs := by
  intro k
  induction k with
  | zero => intro xs a h; simpa [pyShuffleAux] using h
  | succ k ih =>
      intro xs a h
      rw [pyShuffleAux] at h
      exact swapList_mem _ _ _ _ (ih _ _ h)

lemma apply_ordering_mem (addresses : List String) (order : String)
    (rb : Nat → Nat) (a : String) (h : a ∈ apply_ordering addresses order rb) :
    a ∈ addresses := by
  unfold apply_ordering at h
  by_cases ho : pyLower (pyStrip order) = "shuffle"
  · rw [if_pos ho] at h
    exact pyShuffleAux_mem rb _ _ _ h
  · rwa [if_neg ho] at h

/-- Inversion of a successful `addressListInit`. -/
lemma addressListInit_ok_elim (rawLines : List String)
    (modeVal orderVal : Option String) (rb : Nat → Nat) (p : AddrListProfile)
    (hok : addressListInit rawLines modeVal orderVal rb = .ok p) :
    ∃ as canonical,
      validateAddrs (load_addresses_file rawLines) = .ok as ∧
      canonicalMode modeVal orderVal = some canonical ∧
      p = { addrs := apply_ordering as
              (if canonical = "random" then "shuffle" else "sequential") rb,
            idx := 0 } := by
  simp only [addressListInit] at hok
  rcases hv : validateAddrs (load_addresses_file rawLines) with e | as <;>
    rw [hv] at hok
  · cases hok
  · rcases hc : canonicalMode modeVal orderVal with _ | canonical <;>
      rw [hc] at hok
    · cases hok
    · refine ⟨as, canonical, rfl, rfl, ?_⟩
      have h := hok
      injection h with h'
      exact h'.symm

/-! ## Claim C6 -/

/-- C6: every address held (and therefore served via `next_address`) by a
successfully constructed address_list profile is exactly 10 hexadecimal
characters normalized to uppercase; and whenever any non-comment,
non-blank line of the loaded file is not 10 hex digits, construction
returns an error — an invalid address can never reach the injection
path. -/
theorem address_list_address_validity (rawLines : List String)
    (modeVal orderVal : Option String) (rb : Nat → Nat) (p : AddrListProfile)
    (hok : addressListInit rawLines modeVal orderVal rb = .ok p) :
    (∀ a ∈ p.addrs, validAddr a = true) ∧
    (∀ (q : AddrListProfile), q.addrs = p.addrs →
      ∀ (a : String) (q' : AddrListProfile), q.next_address = (some a, q') →
        validAddr a = true) ∧
    (∀ (raws' : List String) (mode' order' : Option String) (rb' : Nat → Nat)
        (l : String), l ∈ load_addresses_file raws' →
        isHex10 (pyStrip l) = false →
        ∃ e, addressListInit raws' mode' order' rb' = .error e) := by
  have hmem : ∀ a ∈ p.addrs, validAddr a = true := by
    intro a ha
    obtain ⟨as, canonical, hv, _, rfl⟩ :=
      addressListInit_ok_elim _ _ _ _ _ hok
    have ha' := apply_ordering_mem _ _ _ _ ha
    exact (validateAddrs_ok _ _ hv).2 a ha'
  refine ⟨hmem, ?_, ?_⟩
  · intro q hq a q' hnext
    unfold AddrListProfile.next_address at hnext
    by_cases hlt : q.idx < q.addrs.length
    · rw [dif_pos hlt] at hnext
      obtain rfl : q.addrs.get ⟨q.idx, hlt⟩ = a := by
        injection hnext with h1 _
        injection h1
      exact hmem _ (hq ▸ List.get_mem q.addrs q.idx hlt)
    · rw [dif_neg hlt] at hnext
      injection hnext with h1 _
      cases h1
  · intro raws' mode' order' rb' l hl hbad
    obtain ⟨e, he⟩ := validateAddrs_error_of_invalid _ _ hl hbad
    refine ⟨e, ?_⟩
    simp only [addressListInit]
    rw [he]

/-- Witness for `address_list_address_validity`: a file with a comment, a
padded lowercase line and a plain line loads into two valid uppercase
addresses. -/
theorem address_list_address_validity_witness :
    (addressListInit ["# comment", " 00aabbccdd ", "0123456789"]
        (some "sequential") none (fun _ => 0) =
      Except.ok ({ addrs := ["00AABBCCDD", "0123456789"], idx := 0 } :
        AddrListProfile)) ∧
    (∀ a ∈ (({ addrs := ["00AABBCCDD", "0123456789"], idx := 0 } :
        AddrListProfile)).addrs, validAddr a = true) := by
  have hok : addressListInit ["# comment", " 00aabbccdd ", "0123456789"]
      (some "sequential") none (fun _ => 0) =
      Except.ok ({ addrs := ["00AABBCCDD", "0123456789"], idx := 0 } :
        AddrListProfile) := by rfl
  exact ⟨hok, (address_list_address_validity _ _ _ _ _ hok).1⟩

/-! ## Claim C7 -/

/-- C7: the address_list construction is a pure function of the file
lines, the mode and the seeded draw stream, so two constructions from the
same inputs serve identical sequences; and in sequential mode the served
order is exactly the validated file order (the loaded lines, stripped and
uppercased, in file order). -/
theorem address_list_ordering_determinism (rawLines : List String)
    (modeVal orderVal : Option String) (rb : Nat → Nat) (p q : AddrListProfile)
    (hp : addressListInit rawLines modeVal orderVal rb = .ok p)
    (hq : addressListInit rawLines modeVal orderVal rb = .ok q) :
    p.iter_addresses = q.iter_addresses ∧
    (∀ (raws' : List String) (rb' : Nat → Nat) (r : AddrListProfile),
      addressListInit raws' (some "sequential") none rb' = .ok r →
      r.iter_addresses =
        (load_addresses_file raws').map (fun l => pyUpper (pyStrip l))) := by
  constructor
  · have h := hp.symm.trans hq
    obtain rfl : p = q := by injection h
    rfl
  · intro raws' rb' r hr
    obtain ⟨as, canonical, hv, hc, rfl⟩ := addressListInit_ok_elim _ _ _ _ _ hr
    have hcanon : canonical = "sequential" := by
      have h0 : canonicalMode (some "sequential") none = some "sequential" := rfl
      rw [h0] at hc
      injection hc with h'
      exact h'.symm
    subst hcanon
    have hbase : (if ("sequential" : String) = "random" then "shuffle"
        else "sequential") = "sequential" := by decide
    rw [hbase]
    have happ : apply_ordering as "sequential" rb' = as := by
      unfold apply_ordering
      rw [if_neg (by decide)]
    show AddrListProfile.iterFrom (apply_ordering as "sequential" rb') 0 = _
    rw [happ, iterFrom_eq_drop, List.drop_zero]
    exact (validateAddrs_ok _ _ hv).1

/-- Witness for `address_list_ordering_determinism`: two-line file, fixed
draw stream; random mode gives a reproducible permutation, sequential mode
gives file order. -/
theorem address_list_ordering_determinism_witness :
    (addressListInit ["000000000a", "000000000b"] (some "random") none
        (fun _ => 0) =
      Except.ok ({ addrs := ["000000000B", "000000000A"], idx := 0 } :
        AddrListProfile)) ∧
    ({ addrs := ["000000000B", "000000000A"], idx := 0 } :
        AddrListProfile).iter_addresses =
      ({ addrs := ["000000000B", "000000000A"], idx := 0 } :
        AddrListProfile).iter_addresses ∧
    (addressListInit ["000000000a", "000000000b"] (some "sequential") none
        (fun _ => 0) =
      Except.ok ({ addrs := ["000000000A", "000000000B"], idx := 0 } :
        AddrListProfile)) ∧
    ({ addrs := ["000000000A", "000000000B"], idx := 0 } :
        AddrListProfile).iter_addresses =
      (load_addresses_file ["000000000a", "000000000b"]).map
        (fun l => pyUpper (pyStrip l)) := by
  have hok : addressListInit ["000000000a", "000000000b"] (some "random") none
      (fun _ => 0) =
      Except.ok ({ addrs := ["000000000B", "000000000A"], idx := 0 } :
        AddrListProfile) := by rfl
  have hseq : addressListInit ["000000000a", "000000000b"] (some "sequential")
      none (fun _ => 0) =
      Except.ok ({ addrs := ["000000000A", "000000000B"], idx := 0 } :
        AddrListProfile) := by rfl
  have h := address_list_ordering_determinism _ _ _ _ _ _ hok hok
  exact ⟨hok, h.1, hseq, h.2 _ _ _ hseq⟩

/-! ## Claim C8 -/

/-- Witness for `ack_wait_preserves_state` at a freshly armed tracker. -/
theorem ack_wait_preserves_state_witness :
    (AckTracker.init.start).pending = true ∧
    ((AckTracker.init.start).wait).2 = AckTracker.init.start ∧
    ((AckTracker.init.start).wait).2.pending = true ∧
    (((AckTracker.init.start).wait).2.on_rx "SC 00").1 = true ∧
    ((((AckTracker.init.start).wait).2.on_rx "SC 00").2).start =
      { pending := true, eventSet := false } :=
  ⟨rfl, ack_wait_preserves_state (AckTracker.init.start) rfl⟩

end FatoriV
